import Mathlib

/-!
Shallow embedding of the progress-tracking core of the voice-cloning
recording portal (`recording_demo.py` and `recording_demo_aws.py`).

Durations are modelled as exact rationals (`Rat`); the claims under study
concern membership, insertion and accumulation, none of which depend on
floating-point rounding.  The progress document (a JSON object keyed by
speaker id) is modelled as an association list preserving insertion order,
which is exactly how a Python `dict` serializes.
-/

namespace RecordingDemo

/-- One volunteer's record inside `progress.json`:
`{"completed_prompts": [...], "total_duration_seconds": ...}`. -/
structure VolunteerProgress where
  completed_prompts : List Int
  total_duration_seconds : Rat
deriving DecidableEq, Repr

/-- The parsed content of `progress.json`: a mapping from speaker id to
`VolunteerProgress`, in insertion order. -/
abbrev Progress := List (String × VolunteerProgress)

/-- First-match lookup in the mapping (Python `dict` access / `in`). -/
def lookupProgress : Progress → String → Option VolunteerProgress
  | [], _ => none
  | (k, v) :: rest, sid => if k = sid then some v else lookupProgress rest sid

/-- Lookup with default, `progress.get(sid, default)`, where the default record is
`{"completed_prompts": [], "total_duration_seconds": 0.0}`. -/
def getProgress (p : Progress) (sid : String) : VolunteerProgress :=
  (lookupProgress p sid).getD ⟨[], 0⟩

/-- Assignment `progress[sid] = v`: replace the entry if the key exists, else append
(Python dict insertion order). -/
def setProgress : Progress → String → VolunteerProgress → Progress
  | [], sid, v => [(sid, v)]
  | (k, w) :: rest, sid, v =>
      if k = sid then (sid, v) :: rest else (k, w) :: setProgress rest sid v

/-- Python `sorted(list(set(l)))` over integers: the strictly ascending
list of the distinct elements of `l`. -/
def dedupSort (l : List Int) : List Int :=
  List.insertionSort (· ≤ ·) l.dedup

/-- Observable state of the file backing the progress store, as
`load_progress` discriminates it: the file may be absent, present but
unparsable JSON, present and parsed, or inaccessible (e.g. a permission
error on `open`, which the code does not catch). -/
inductive FileState where
  | absent
  | unparsable
  | parsed (p : Progress)
  | inaccessible
deriving DecidableEq

/-- Outcome of `load_progress`: a returned mapping, or a propagated
exception. -/
inductive LoadOutcome where
  | ok (p : Progress)
  | raised
deriving DecidableEq

/-- Function `load_progress` (recording_demo.py lines 75–85): if the file exists,
parse it, catching only `json.JSONDecodeError` (degrading to `{}`); if the
file is missing return `{}`; any other error (e.g. permission denied when
opening) propagates. -/
def load_progress : FileState → LoadOutcome
  | .absent => .ok []
  | .unparsable => .ok []
  | .parsed p => .ok p
  | .inaccessible => .raised

/-- Function `save_progress` (recording_demo.py lines 88–105) acting on the loaded
mapping: fetch or create the speaker's record; if `prompt_idx` is not yet
in `completed_prompts`, append it, add `audio_duration` to the total, and
replace the list by `sorted(list(set(...)))`; finally write the mapping
back. -/
def save_progress (p : Progress) (speaker_id : String) (prompt_idx : Int)
    (audio_duration : Rat) : Progress :=
  let cur := getProgress p speaker_id
  let cur' :=
    if prompt_idx ∈ cur.completed_prompts then cur
    else
      { completed_prompts := dedupSort (cur.completed_prompts ++ [prompt_idx])
        total_duration_seconds := cur.total_duration_seconds + audio_duration }
  setProgress p speaker_id cur'

/-- The next-prompt scan from recording_demo.py lines 171–175 and 187–191:
walk `i = start, start+1, ...` for `fuel` steps, returning the first `i`
whose value is not in `completed`. -/
def firstMissing (completed : List Int) : Nat → Nat → Option Nat
  | _, 0 => none
  | start, fuel + 1 =>
      if (start : Int) ∈ completed then firstMissing completed (start + 1) fuel
      else some start

/-- The prompt sequencer (recording_demo.py lines 170–177 / 186–193):
first index in `0..n-1` not in `completed`, else `0` (wrap-around),
where `n = len(prompts)`. -/
def next_prompt_idx (n : Nat) (completed : List Int) : Nat :=
  (firstMissing completed 0 n).getD 0

/-- Python `not speaker_id.strip()`: true exactly when the string is
empty or consists solely of whitespace. -/
def isBlank (s : String) : Bool :=
  s.data.all Char.isWhitespace

/-- The AWS variant's blank check `speaker_id.replace(" ", "") == ""`:
true exactly when every character is a space. -/
def awsBlank (s : String) : Bool :=
  s.data.all (· = ' ')

/-- Function `update_prompt_on_speaker_change` (lines 181–194), with the parsed
progress mapping in place of the file: blank speaker id resumes at index
0, otherwise the sequencer runs on the speaker's completed set. -/
def update_prompt_on_speaker_change (speaker_id : String)
    (prompts : List String) (progress : Progress) : String × Nat :=
  if isBlank speaker_id then (prompts.getD 0 "", 0)
  else
    let completed := (getProgress progress speaker_id).completed_prompts
    let i := next_prompt_idx prompts.length completed
    (prompts.getD i "", i)

/-- The shapes the Gradio audio value can take, as `audio_to_wav_bytes`
(lines 50–73) discriminates them.  Each recognized shape carries the
duration in seconds of the audio content it decodes to; `unrecognized`
covers every shape that falls through to `raise ValueError`. -/
inductive AudioLike where
  | tupleSr (dur : Rat)
  | dictData (dur : Rat)
  | dictPath (dur : Rat)
  | filepath (dur : Rat)
  | unrecognized
deriving DecidableEq

/-- Function `audio_to_wav_bytes`: the WAV bytes produced, abstracted to the
duration of the audio they encode; `none` models the raised
`ValueError`. -/
def audio_to_wav_bytes : AudioLike → Option Rat
  | .tupleSr dur => some dur
  | .dictData dur => some dur
  | .dictPath dur => some dur
  | .filepath dur => some dur
  | .unrecognized => none

/-- One row of `meta.csv`: `speaker_id,prompt_idx,prompt_text,path`. -/
structure MetaRow where
  speaker_id : String
  prompt_idx : Nat
  prompt_text : String
  path : String
deriving DecidableEq

/-- The externally visible state `record_and_save` reads and writes:
the parsed progress document, the local audio files (path to duration of
their WAV content), the S3 objects (key to duration), and the metadata
log. -/
structure World where
  progress : Progress
  localAudio : List (String × Rat)
  s3Objects : List (String × Rat)
  meta : List MetaRow
deriving DecidableEq

/-- File lookup by exact path/key, most recent write first. -/
def lookupFile : List (String × Rat) → String → Option Rat
  | [], _ => none
  | (k, v) :: rest, p => if k = p then some v else lookupFile rest p

/-- Python `f"{prompt_idx:03d}"`. -/
def pad3 (n : Nat) : String :=
  if n < 10 then "00" ++ toString n
  else if n < 100 then "0" ++ toString n
  else toString n

/-- The recording filename `{speaker}_{idx:03d}_{timestamp}.wav`. -/
def wav_fname (speaker_id : String) (prompt_idx : Nat) (timestamp : String) :
    String :=
  speaker_id ++ "_" ++ pad3 prompt_idx ++ "_" ++ timestamp ++ ".wav"

/-- Path `local_file_path = Path(local_root) / "raw" / speaker_id / fname`. -/
def local_path (local_root speaker_id : String) (prompt_idx : Nat)
    (timestamp : String) : String :=
  local_root ++ "/raw/" ++ speaker_id ++ "/" ++
    wav_fname speaker_id prompt_idx timestamp

/-- Key `s3_key = f"raw/{speaker_id}/{fname}"`. -/
def s3_key_of (speaker_id : String) (prompt_idx : Nat) (timestamp : String) :
    String :=
  "raw/" ++ speaker_id ++ "/" ++ wav_fname speaker_id prompt_idx timestamp

/-- First component of the 5-tuple `record_and_save` returns: a
`gr.Warning` or the "✅ Saved to ..." status string. -/
inductive Status where
  | warning (msg : String)
  | saved (path : String)
deriving DecidableEq

/-- The 5-tuple returned by `record_and_save`: status, next prompt text,
next prompt index, and — on success — the completed count and the total
duration rendered into the two summary strings (warnings return empty
strings, modelled as `none`). -/
structure SubmitResult where
  status : Status
  prompt_text : String
  prompt_idx : Nat
  summary : Option (Nat × Rat)
deriving DecidableEq

/-- Function `record_and_save` (recording_demo.py lines 122–179).  Validation and
decode failures return a warning at the unchanged current prompt and
leave the world untouched.  Otherwise: write the WAV locally or to S3,
append the metadata row, probe the duration of `local_file_path`
(falling back to `0.0` when `sf.info` fails because no such local file
exists), merge via `save_progress`, re-load, and run the sequencer. -/
def record_and_save (speaker_id : String) (prompt_idx : Nat)
    (audio : Option AudioLike) (prompts : List String)
    (bucket : Option String) (local_root : String) (timestamp : String)
    (w : World) : SubmitResult × World :=
  if isBlank speaker_id then
    (⟨.warning "Please enter Speaker-ID first.",
      prompts.getD prompt_idx "", prompt_idx, none⟩, w)
  else
    match audio with
    | none =>
        (⟨.warning "Please record before submitting.",
          prompts.getD prompt_idx "", prompt_idx, none⟩, w)
    | some a =>
        match audio_to_wav_bytes a with
        | none =>
            (⟨.warning "Audio processing error",
              prompts.getD prompt_idx "", prompt_idx, none⟩, w)
        | some wavDur =>
            let lfp := local_path local_root speaker_id prompt_idx timestamp
            let path_str :=
              match bucket with
              | some b =>
                  "s3://" ++ b ++ "/" ++ s3_key_of speaker_id prompt_idx timestamp
              | none => lfp
            let w1 :=
              match bucket with
              | some _ =>
                  { w with s3Objects :=
                      (s3_key_of speaker_id prompt_idx timestamp, wavDur) ::
                        w.s3Objects }
              | none => { w with localAudio := (lfp, wavDur) :: w.localAudio }
            let w2 :=
              { w1 with meta := w1.meta ++
                  [MetaRow.mk speaker_id prompt_idx (prompts.getD prompt_idx "")
                    path_str] }
            let audio_duration := (lookupFile w2.localAudio lfp).getD 0
            let prog2 :=
              save_progress w2.progress speaker_id (Int.ofNat prompt_idx)
                audio_duration
            let w3 := { w2 with progress := prog2 }
            let rcd := getProgress prog2 speaker_id
            let next_idx := next_prompt_idx prompts.length rcd.completed_prompts
            (⟨.saved path_str, prompts.getD next_idx "", next_idx,
              some (rcd.completed_prompts.length, rcd.total_duration_seconds)⟩,
             w3)

/-- State touched by the AWS variant (`recording_demo_aws.py`): audio
destinations and the metadata log.  That script keeps no progress
document at all. -/
structure AwsWorld where
  localAudio : List (String × Rat)
  s3Objects : List (String × Rat)
  meta : List MetaRow
deriving DecidableEq

/-- The triple returned by the AWS variant's `record_and_save`: status,
next prompt text (`None` on warnings), next prompt index. -/
structure AwsResult where
  status : Status
  prompt_text : Option String
  prompt_idx : Nat
deriving DecidableEq

/-- Function `record_and_save` of `recording_demo_aws.py` (lines 68–97): validate,
write the WAV, append metadata, and advance cyclically to
`(prompt_idx + 1) % len(prompts)`.  The audio value is the mic tuple,
abstracted to the duration of its WAV content. -/
def aws_record_and_save (speaker_id : String) (prompt_idx : Nat)
    (audio : Option Rat) (prompts : List String) (bucket : Option String)
    (local_root : String) (timestamp : String) (w : AwsWorld) :
    AwsResult × AwsWorld :=
  if awsBlank speaker_id then
    (⟨.warning "Please enter Speaker ID first.", none, prompt_idx⟩, w)
  else
    match audio with
    | none =>
        (⟨.warning "Record the sentence before submitting.", none,
          prompt_idx⟩, w)
    | some wavDur =>
        let fname := wav_fname speaker_id prompt_idx timestamp
        let res :=
          match bucket with
          | some b =>
              ({ w with s3Objects :=
                  ("raw/" ++ speaker_id ++ "/" ++ fname, wavDur) ::
                    w.s3Objects },
               "s3://" ++ b ++ "/raw/" ++ speaker_id ++ "/" ++ fname)
          | none =>
              let path := local_root ++ "/raw/" ++ speaker_id ++ "/" ++ fname
              ({ w with localAudio := (path, wavDur) :: w.localAudio }, path)
        let w1 := res.1
        let loc := res.2
        let w2 :=
          { w1 with meta := w1.meta ++
              [MetaRow.mk speaker_id prompt_idx (prompts.getD prompt_idx "") loc] }
        let next_idx := (prompt_idx + 1) % prompts.length
        (⟨.saved loc, some (prompts.getD next_idx ""), next_idx⟩, w2)

/-! ### Helper lemmas -/

theorem mem_dedupSort {a : Int} {l : List Int} : a ∈ dedupSort l ↔ a ∈ l := by
  unfold dedupSort
  rw [(List.perm_insertionSort (· ≤ ·) l.dedup).mem_iff]
  exact List.mem_dedup

theorem nodup_dedupSort (l : List Int) : (dedupSort l).Nodup :=
  (List.perm_insertionSort (· ≤ ·) l.dedup).nodup_iff.mpr (List.nodup_dedup l)

theorem sorted_lt_dedupSort (l : List Int) :
    List.Sorted (· < ·) (dedupSort l) :=
  List.Sorted.lt_of_le (List.sorted_insertionSort (· ≤ ·) l.dedup)
    (nodup_dedupSort l)

theorem lookupProgress_setProgress_self (p : Progress) (sid : String)
    (v : VolunteerProgress) :
    lookupProgress (setProgress p sid v) sid = some v := by
  induction p with
  | nil => simp [setProgress, lookupProgress]
  | cons hd tl ih =>
      obtain ⟨k, w⟩ := hd
      by_cases hk : k = sid
      · simp [setProgress, lookupProgress, hk]
      · simp [setProgress, lookupProgress, hk, ih]

theorem setProgress_self (p : Progress) (sid : String) (v : VolunteerProgress)
    (h : lookupProgress p sid = some v) : setProgress p sid v = p := by
  induction p with
  | nil => simp [lookupProgress] at h
  | cons hd tl ih =>
      obtain ⟨k, w⟩ := hd
      by_cases hk : k = sid
      · simp [lookupProgress, hk] at h
        simp [setProgress, hk, h]
      · simp [lookupProgress, hk] at h
        simp [setProgress, hk, ih h]

theorem lookupProgress_mem {p : Progress} {sid : String}
    {v : VolunteerProgress} (h : lookupProgress p sid = some v) :
    (sid, v) ∈ p := by
  induction p with
  | nil => simp [lookupProgress] at h
  | cons hd tl ih =>
      obtain ⟨k, w⟩ := hd
      by_cases hk : k = sid
      · simp [lookupProgress, hk] at h
        subst hk; subst h; exact List.mem_cons_self _ _
      · simp [lookupProgress, hk] at h
        exact List.mem_cons_of_mem _ (ih h)

theorem mem_setProgress {p : Progress} {sid : String} {v : VolunteerProgress}
    {e : String × VolunteerProgress} (h : e ∈ setProgress p sid v) :
    e ∈ p ∨ e = (sid, v) := by
  induction p with
  | nil => simp [setProgress] at h; right; exact h
  | cons hd tl ih =>
      obtain ⟨k, w⟩ := hd
      by_cases hk : k = sid
      · simp [setProgress, hk] at h
        rcases h with h | h
        · right; exact h
        · left; exact List.mem_cons_of_mem _ h
      · simp [setProgress, hk] at h
        rcases h with h | h
        · left; simp [h]
        · rcases ih h with h' | h'
          · left; exact List.mem_cons_of_mem _ h'
          · right; exact h'

theorem getProgress_save_progress (p : Progress) (sid : String) (idx : Int)
    (d : Rat) :
    getProgress (save_progress p sid idx d) sid =
      if idx ∈ (getProgress p sid).completed_prompts then getProgress p sid
      else
        ⟨dedupSort ((getProgress p sid).completed_prompts ++ [idx]),
         (getProgress p sid).total_duration_seconds + d⟩ := by
  simp only [save_progress]
  split
  · simp [getProgress, lookupProgress_setProgress_self]
  · simp [getProgress, lookupProgress_setProgress_self]

theorem save_progress_of_mem {p : Progress} {sid : String} {idx : Int}
    {d : Rat} (h : idx ∈ (getProgress p sid).completed_prompts) :
    save_progress p sid idx d = p := by
  have hlk : lookupProgress p sid = some (getProgress p sid) := by
    cases hc : lookupProgress p sid with
    | none =>
        exfalso
        rw [getProgress, hc] at h
        simp at h
    | some v => rw [getProgress, hc]; rfl
  simp only [save_progress]
  rw [if_pos h]
  exact setProgress_self _ _ _ hlk

theorem firstMissing_eq_none (c : List Int) (fuel start : Nat)
    (h : ∀ i, start ≤ i → i < start + fuel → (i : Int) ∈ c) :
    firstMissing c start fuel = none := by
  induction fuel generalizing start with
  | zero => rfl
  | succ n ih =>
      have hs : (start : Int) ∈ c := h start le_rfl (by omega)
      rw [firstMissing, if_pos hs]
      exact ih (start + 1) fun i h1 h2 => h i (by omega) (by omega)

theorem firstMissing_eq_some (c : List Int) (fuel start j : Nat)
    (hj1 : start ≤ j) (hj2 : j < start + fuel) (hjc : (j : Int) ∉ c)
    (hmin : ∀ i, start ≤ i → i < j → (i : Int) ∈ c) :
    firstMissing c start fuel = some j := by
  induction fuel generalizing start with
  | zero => omega
  | succ n ih =>
      by_cases hs : (start : Int) ∈ c
      · have hne : start ≠ j := by
          intro e; exact hjc (e ▸ hs)
        rw [firstMissing, if_pos hs]
        exact ih (start + 1) (by omega) (by omega)
          fun i h1 h2 => hmin i (by omega) h2
      · have heq : start = j := by
          by_contra hne
          exact hs (hmin start le_rfl (by omega))
        rw [firstMissing, if_neg hs, heq]

theorem firstMissing_lt (c : List Int) (fuel start j : Nat)
    (h : firstMissing c start fuel = some j) : j < start + fuel := by
  induction fuel generalizing start with
  | zero => simp [firstMissing] at h
  | succ n ih =>
      rw [firstMissing] at h
      split at h
      · have := ih (start + 1) h
        omega
      · simp at h
        omega

theorem next_prompt_idx_eq_of {n j : Nat} {c : List Int} (hj : j < n)
    (hjc : (j : Int) ∉ c) (hmin : ∀ i, i < j → (i : Int) ∈ c) :
    next_prompt_idx n c = j := by
  unfold next_prompt_idx
  rw [firstMissing_eq_some c n 0 j (Nat.zero_le _) (by omega) hjc
    fun i _ h2 => hmin i h2]
  rfl

theorem next_prompt_idx_eq_zero {n : Nat} {c : List Int}
    (h : ∀ i, i < n → (i : Int) ∈ c) : next_prompt_idx n c = 0 := by
  unfold next_prompt_idx
  rw [firstMissing_eq_none c n 0 fun i _ h2 => h i (by omega)]
  rfl

theorem next_prompt_idx_lt {n : Nat} (c : List Int) (hn : 1 ≤ n) :
    next_prompt_idx n c < n := by
  unfold next_prompt_idx
  cases hf : firstMissing c 0 n with
  | none => simpa using hn
  | some j =>
      have := firstMissing_lt c n 0 j hf
      simpa using this

/-- Integer list `[0, 1, ..., k-1]`, the completed set `{0,...,k-1}` of
the spec's sequencer-correctness property. -/
def rangeInts (k : Nat) : List Int :=
  (List.range k).map Int.ofNat

theorem mem_rangeInts {k i : Nat} : (i : Int) ∈ rangeInts k ↔ i < k := by
  unfold rangeInts
  constructor
  · intro h
    rcases List.mem_map.mp h with ⟨a, ha, hae⟩
    have hae' : (a : Int) = (i : Int) := hae
    have : a = i := by exact_mod_cast hae'
    subst this
    exact List.mem_range.mp ha
  · intro h
    exact List.mem_map.mpr ⟨i, List.mem_range.mpr h, rfl⟩

/-- The progress mapping is valid for a prompt list of length `N`: every
recorded completed index is an integer in `0..N-1`. -/
def ValidStore (N : Nat) (p : Progress) : Prop :=
  ∀ e ∈ p, ∀ j ∈ e.2.completed_prompts, 0 ≤ j ∧ j < (N : Int)

instance (N : Nat) (p : Progress) : Decidable (ValidStore N p) := by
  unfold ValidStore
  infer_instance

theorem validStore_save_progress {N : Nat} {p : Progress} {sid : String}
    {idx : Int} {d : Rat} (hp : ValidStore N p) (h0 : 0 ≤ idx)
    (hN : idx < (N : Int)) : ValidStore N (save_progress p sid idx d) := by
  intro e he j hj
  simp only [save_progress] at he
  rcases mem_setProgress he with hmem | hev
  · exact hp e hmem j hj
  · subst hev
    simp only at hj
    have hcur : ∀ j ∈ (getProgress p sid).completed_prompts,
        0 ≤ j ∧ j < (N : Int) := by
      intro j' hj'
      cases hc : lookupProgress p sid with
      | none => rw [getProgress, hc] at hj'; simp at hj'
      | some v =>
          rw [getProgress, hc] at hj'
          exact hp (sid, v) (lookupProgress_mem hc) j' hj'
    split at hj
    · exact hcur j hj
    · simp only at hj
      rcases List.mem_append.mp (mem_dedupSort.mp hj) with h' | h'
      · exact hcur j h'
      · simp at h'
        subst h'
        exact ⟨h0, hN⟩

/-! ### Claim theorems -/

/-- C1: Idempotence of the progress merger.  Starting from any store in
which `prompt_idx` is not yet completed for `speaker_id`, calling
`save_progress` twice with the same `(speaker_id, prompt_idx, duration)`
leaves the store identical to the one after the first call (the second
call mutates neither the set nor the accumulator), the resulting
`completed_prompts` contains `prompt_idx` exactly once, and
`total_duration_seconds` has increased by `duration` exactly once, not
twice. -/
theorem c1_merger_idempotent (p : Progress) (sid : String) (idx : Int)
    (d : Rat) (hfresh : idx ∉ (getProgress p sid).completed_prompts) :
    save_progress (save_progress p sid idx d) sid idx d
      = save_progress p sid idx d
    ∧ List.count idx
        (getProgress (save_progress (save_progress p sid idx d) sid idx d)
          sid).completed_prompts = 1
    ∧ (getProgress (save_progress (save_progress p sid idx d) sid idx d)
        sid).total_duration_seconds
      = (getProgress p sid).total_duration_seconds + d := by
  have h1 : getProgress (save_progress p sid idx d) sid
      = ⟨dedupSort ((getProgress p sid).completed_prompts ++ [idx]),
         (getProgress p sid).total_duration_seconds + d⟩ := by
    rw [getProgress_save_progress, if_neg hfresh]
  have hmem : idx ∈ (getProgress (save_progress p sid idx d) sid).completed_prompts := by
    rw [h1]
    exact mem_dedupSort.mpr (List.mem_append_right _ (by simp))
  have h2 : save_progress (save_progress p sid idx d) sid idx d
      = save_progress p sid idx d := save_progress_of_mem hmem
  refine ⟨h2, ?_, ?_⟩
  · rw [h2, h1]
    exact List.count_eq_one_of_mem (nodup_dedupSort _)
      (mem_dedupSort.mpr (List.mem_append_right _ (by simp)))
  · rw [h2, h1]

/-- Witness for C1 at a concrete input. -/
theorem c1_merger_idempotent_witness :
    (0 : Int) ∉ (getProgress [] "jdoe").completed_prompts
    ∧ (save_progress (save_progress [] "jdoe" 0 (5/2)) "jdoe" 0 (5/2)
        = save_progress [] "jdoe" 0 (5/2)
      ∧ List.count 0
          (getProgress (save_progress (save_progress [] "jdoe" 0 (5/2))
            "jdoe" 0 (5/2)) "jdoe").completed_prompts = 1
      ∧ (getProgress (save_progress (save_progress [] "jdoe" 0 (5/2))
          "jdoe" 0 (5/2)) "jdoe").total_duration_seconds
        = (getProgress [] "jdoe").total_duration_seconds + 5/2) :=
  ⟨by decide, c1_merger_idempotent [] "jdoe" 0 (5/2) (by decide)⟩

/-- C2: Sequencer correctness.  For a prompt list of length `n ≥ 1`, the
sequencer returns the first index not in `completed_prompts` (the least
`j` with all smaller indices present); when every index `0..n-1` is
present it returns `0` (wrap-around); for `completed = {0,...,k-1}` it
returns `k` when `k < n` and `0` when `k = n`; and over a 3-prompt list
with `completed = {0, 2}` it returns `1`. -/
theorem c2_sequencer_correct (n j k : Nat) (c c' : List Int)
    (hn : 1 ≤ n) (hj : j < n) (hjc : (j : Int) ∉ c)
    (hmin : ∀ i, i < j → (i : Int) ∈ c)
    (hall : ∀ i, i < n → (i : Int) ∈ c') (hk : k ≤ n) :
    next_prompt_idx n c = j
    ∧ next_prompt_idx n c' = 0
    ∧ (k < n → next_prompt_idx n (rangeInts k) = k)
    ∧ (k = n → next_prompt_idx n (rangeInts k) = 0)
    ∧ next_prompt_idx 3 [0, 2] = 1 := by
  refine ⟨next_prompt_idx_eq_of hj hjc hmin,
    next_prompt_idx_eq_zero hall, ?_, ?_, by decide⟩
  · intro hkn
    exact next_prompt_idx_eq_of hkn
      (fun h => absurd (mem_rangeInts.mp h) (lt_irrefl k))
      (fun i hi => mem_rangeInts.mpr hi)
  · intro hkn
    subst hkn
    exact next_prompt_idx_eq_zero fun i hi => mem_rangeInts.mpr hi

/-- Witness for C2 at a concrete input: `n = 3`, first missing index of
`{0, 2}` is `1`, full set `{0, 1, 2}` wraps to `0`, and `k = 3 = n`. -/
theorem c2_sequencer_correct_witness :
    (1 ≤ 3 ∧ 1 < 3 ∧ (1 : Int) ∉ [(0 : Int), 2]
      ∧ (∀ i : Nat, i < 1 → (i : Int) ∈ [(0 : Int), 2])
      ∧ (∀ i : Nat, i < 3 → (i : Int) ∈ [(0 : Int), 1, 2]) ∧ 3 ≤ 3)
    ∧ (next_prompt_idx 3 [0, 2] = 1
      ∧ next_prompt_idx 3 [0, 1, 2] = 0
      ∧ (3 < 3 → next_prompt_idx 3 (rangeInts 3) = 3)
      ∧ (3 = 3 → next_prompt_idx 3 (rangeInts 3) = 0)
      ∧ next_prompt_idx 3 [0, 2] = 1) :=
  ⟨⟨by decide, by decide, by decide, by decide, by decide, by decide⟩,
   c2_sequencer_correct 3 1 3 [0, 2] [0, 1, 2] (by decide) (by decide)
     (by decide) (by decide) (by decide) (by decide)⟩

/-- C3: Monotonicity of the merger.  For a fixed `speaker_id`, one
`save_progress` call with a non-negative duration never removes an index
from `completed_prompts` and never decreases `total_duration_seconds`;
since the store is universally quantified, this covers every call of any
finite sequence of merges. -/
theorem c3_merger_monotonic (p : Progress) (sid : String) (idx : Int)
    (d : Rat) (hd : 0 ≤ d) :
    (∀ j ∈ (getProgress p sid).completed_prompts,
        j ∈ (getProgress (save_progress p sid idx d) sid).completed_prompts)
    ∧ (getProgress p sid).total_duration_seconds
        ≤ (getProgress (save_progress p sid idx d) sid).total_duration_seconds := by
  rw [getProgress_save_progress]
  split
  · exact ⟨fun j hj => hj, le_refl _⟩
  · refine ⟨fun j hj => mem_dedupSort.mpr (List.mem_append_left _ hj), ?_⟩
    exact le_add_of_nonneg_right hd

/-- Witness for C3 at a concrete input. -/
theorem c3_merger_monotonic_witness :
    (0 : Rat) ≤ 3
    ∧ ((∀ j ∈ (getProgress [("a", ⟨[1], 2⟩)] "a").completed_prompts,
          j ∈ (getProgress (save_progress [("a", ⟨[1], 2⟩)] "a" 0 3)
            "a").completed_prompts)
      ∧ (getProgress [("a", ⟨[1], 2⟩)] "a").total_duration_seconds
          ≤ (getProgress (save_progress [("a", ⟨[1], 2⟩)] "a" 0 3)
            "a").total_duration_seconds) :=
  ⟨by norm_num, c3_merger_monotonic [("a", ⟨[1], 2⟩)] "a" 0 3 (by norm_num)⟩

/-- C5: Load resilience of the progress store.  `load_progress` returns
the full persisted mapping when the file exists and parses, returns the
empty mapping without raising both when the file is absent and when its
content is unparsable, and lets any other I/O failure (such as a
permission error) propagate. -/
theorem c5_load_resilient (p : Progress) :
    load_progress .absent = .ok []
    ∧ load_progress .unparsable = .ok []
    ∧ load_progress (.parsed p) = .ok p
    ∧ load_progress .inaccessible = .raised :=
  ⟨rfl, rfl, rfl, rfl⟩

/-- C7 counterexample: a store whose persisted list for speaker `"a"` is
the unnormalized `[2, 1]` (as a hand-edited or legacy `progress.json`
would give), submitted with the already-present index `1`: the call
persists `[2, 1]` unchanged, which is not in ascending order, so the
normalization claimed for every call does not happen on the
already-present branch. -/
theorem c7_counterexample :
    (getProgress (save_progress [("a", ⟨[2, 1], 0⟩)] "a" 1 0) "a").completed_prompts
      = [2, 1]
    ∧ ¬ List.Sorted (· < ·)
        (getProgress (save_progress [("a", ⟨[2, 1], 0⟩)] "a" 1 0)
          "a").completed_prompts := by
  constructor
  · decide
  · intro hs
    have : (getProgress (save_progress [("a", ⟨[2, 1], 0⟩)] "a" 1 0)
        "a").completed_prompts = [2, 1] := by decide
    rw [this] at hs
    have := List.rel_of_sorted_cons hs 1 (by simp)
    omega

/-- C7 (amended): `save_progress` establishes the deduplicated strictly
ascending normal form whenever it inserts a new `prompt_idx`; a call
whose `prompt_idx` is already present persists the stored mapping
unchanged, so normalization is preserved on such calls but not
established. -/
theorem c7_normalization (p : Progress) (sid : String) (idx : Int)
    (d : Rat) :
    (idx ∉ (getProgress p sid).completed_prompts →
      (getProgress (save_progress p sid idx d) sid).completed_prompts
          = dedupSort ((getProgress p sid).completed_prompts ++ [idx])
        ∧ List.Sorted (· < ·)
            (getProgress (save_progress p sid idx d) sid).completed_prompts
        ∧ ((getProgress (save_progress p sid idx d) sid).completed_prompts).Nodup)
    ∧ (idx ∈ (getProgress p sid).completed_prompts →
        save_progress p sid idx d = p)
    ∧ (List.Sorted (· < ·) (getProgress p sid).completed_prompts →
        List.Sorted (· < ·)
          (getProgress (save_progress p sid idx d) sid).completed_prompts) := by
  refine ⟨?_, fun h => save_progress_of_mem h, ?_⟩
  · intro h
    rw [getProgress_save_progress, if_neg h]
    exact ⟨rfl, sorted_lt_dedupSort _, nodup_dedupSort _⟩
  · intro hs
    rw [getProgress_save_progress]
    split
    · exact hs
    · exact sorted_lt_dedupSort _

/-- Witness for C7 (amended) at a concrete input. -/
theorem c7_normalization_witness :
    (3 : Int) ∉ (getProgress [("a", ⟨[1], 2⟩)] "a").completed_prompts
    ∧ List.Sorted (· < ·)
        (getProgress (save_progress [("a", ⟨[1], 2⟩)] "a" 3 1)
          "a").completed_prompts :=
  ⟨by decide,
   ((c7_normalization [("a", ⟨[1], 2⟩)] "a" 3 1).1 (by decide)).2.1⟩

/-- C4 counterexample: a successful first-time S3-mode submission whose
persisted object has duration 1 second, after which the speaker's
`completed_prompts` gained the index but `total_duration_seconds` gained
0, not the persisted duration — the duration probe reads the local path,
which does not exist in bucket mode. -/
theorem c4_counterexample :
    (record_and_save "jdoe" 0 (some (.tupleSr 1)) ["A"] (some "b") "data" "t"
        ⟨[], [], [], []⟩).2.s3Objects = [("raw/jdoe/jdoe_000_t.wav", 1)]
    ∧ (getProgress (record_and_save "jdoe" 0 (some (.tupleSr 1)) ["A"]
        (some "b") "data" "t" ⟨[], [], [], []⟩).2.progress
        "jdoe").completed_prompts = [0]
    ∧ (getProgress (record_and_save "jdoe" 0 (some (.tupleSr 1)) ["A"]
        (some "b") "data" "t" ⟨[], [], [], []⟩).2.progress
        "jdoe").total_duration_seconds = 0 := by
  refine ⟨by decide, ?_, ?_⟩ <;>
    simp [record_and_save, isBlank, audio_to_wav_bytes, save_progress,
      getProgress, lookupProgress, setProgress, dedupSort, lookupFile,
      local_path, wav_fname, pad3, s3_key_of]

/-- C4 (amended): on a successful first-time submission in local-storage
mode, the duration added to `total_duration_seconds` equals the duration
of the audio file actually persisted at `local_file_path`; in S3-bucket
mode the controller still probes the local path, so the duration added is
whatever local file happens to sit there (0 when none does), not the
persisted S3 object's duration. -/
theorem c4_duration_accounting (sid : String) (idx : Nat) (a : AudioLike)
    (dur : Rat) (prompts : List String) (bucket : Option String)
    (root ts : String) (w : World)
    (hs : isBlank sid = false) (ha : audio_to_wav_bytes a = some dur)
    (hfresh : Int.ofNat idx ∉ (getProgress w.progress sid).completed_prompts) :
    (bucket = none →
      (getProgress (record_and_save sid idx (some a) prompts bucket root ts
          w).2.progress sid).total_duration_seconds
        = (getProgress w.progress sid).total_duration_seconds + dur
      ∧ lookupFile (record_and_save sid idx (some a) prompts bucket root ts
          w).2.localAudio (local_path root sid idx ts) = some dur)
    ∧ (∀ b, bucket = some b →
      (getProgress (record_and_save sid idx (some a) prompts bucket root ts
          w).2.progress sid).total_duration_seconds
        = (getProgress w.progress sid).total_duration_seconds
          + (lookupFile w.localAudio (local_path root sid idx ts)).getD 0) := by
  constructor
  · intro hb
    subst hb
    have hred : (record_and_save sid idx (some a) prompts none root ts
        w).2.progress = save_progress w.progress sid (Int.ofNat idx) dur := by
      simp [record_and_save, hs, ha, lookupFile]
    have hla : (record_and_save sid idx (some a) prompts none root ts
        w).2.localAudio = (local_path root sid idx ts, dur) :: w.localAudio := by
      simp [record_and_save, hs, ha]
    refine ⟨?_, ?_⟩
    · rw [hred, getProgress_save_progress, if_neg hfresh]
    · rw [hla, lookupFile, if_pos rfl]
  · intro b hb
    subst hb
    have hred : (record_and_save sid idx (some a) prompts (some b) root ts
        w).2.progress = save_progress w.progress sid (Int.ofNat idx)
          ((lookupFile w.localAudio (local_path root sid idx ts)).getD 0) := by
      simp [record_and_save, hs, ha]
    rw [hred, getProgress_save_progress, if_neg hfresh]

/-- Witness for C4 (amended) at a concrete input. -/
theorem c4_duration_accounting_witness :
    (isBlank "jdoe" = false ∧ audio_to_wav_bytes (.tupleSr 2) = some 2
      ∧ Int.ofNat 0 ∉ (getProgress ([] : Progress) "jdoe").completed_prompts)
    ∧ ((none = (none : Option String) →
        (getProgress (record_and_save "jdoe" 0 (some (.tupleSr 2)) ["A"]
            none "data" "t" ⟨[], [], [], []⟩).2.progress
          "jdoe").total_duration_seconds
          = (getProgress ([] : Progress) "jdoe").total_duration_seconds + 2
        ∧ lookupFile (record_and_save "jdoe" 0 (some (.tupleSr 2)) ["A"]
            none "data" "t" ⟨[], [], [], []⟩).2.localAudio
            (local_path "data" "jdoe" 0 "t") = some 2)
      ∧ (∀ b, (none : Option String) = some b →
        (getProgress (record_and_save "jdoe" 0 (some (.tupleSr 2)) ["A"]
            none "data" "t" ⟨[], [], [], []⟩).2.progress
          "jdoe").total_duration_seconds
          = (getProgress ([] : Progress) "jdoe").total_duration_seconds
            + (lookupFile ([] : List (String × Rat))
                (local_path "data" "jdoe" 0 "t")).getD 0)) :=
  ⟨⟨by decide, rfl, by decide⟩,
   c4_duration_accounting "jdoe" 0 (.tupleSr 2) 2 ["A"] none "data" "t"
     ⟨[], [], [], []⟩ (by decide) rfl (by decide)⟩

/-- C6: Validation and decode errors cause no state mutation.  Whenever
the speaker id is blank, the audio payload is missing, or the payload is
unrecognized, `record_and_save` returns a warning, keeps the current
prompt text and index, and writes neither the progress store, the audio
storage, nor the metadata log. -/
theorem c6_validation_no_mutation (sid : String) (idx : Nat)
    (audio : Option AudioLike) (prompts : List String)
    (bucket : Option String) (root ts : String) (w : World)
    (h : isBlank sid = true ∨ audio = none ∨ audio = some .unrecognized) :
    (∃ msg, (record_and_save sid idx audio prompts bucket root ts w).1.status
        = .warning msg)
    ∧ (record_and_save sid idx audio prompts bucket root ts w).1.prompt_text
        = prompts.getD idx ""
    ∧ (record_and_save sid idx audio prompts bucket root ts w).1.prompt_idx
        = idx
    ∧ (record_and_save sid idx audio prompts bucket root ts w).2 = w := by
  cases hbv : isBlank sid with
  | true => simp [record_and_save, hbv]
  | false =>
      rcases h with h | h | h
      · rw [hbv] at h; cases h
      · subst h; simp [record_and_save, hbv]
      · subst h; simp [record_and_save, hbv, audio_to_wav_bytes]

/-- Witness for C6 at a concrete input (missing audio payload). -/
theorem c6_validation_no_mutation_witness :
    (isBlank "jdoe" = true ∨ (none : Option AudioLike) = none
      ∨ (none : Option AudioLike) = some .unrecognized)
    ∧ ((∃ msg, (record_and_save "jdoe" 1 none ["A", "B"] none "data" "t"
          ⟨[], [], [], []⟩).1.status = .warning msg)
      ∧ (record_and_save "jdoe" 1 none ["A", "B"] none "data" "t"
          ⟨[], [], [], []⟩).1.prompt_text = ["A", "B"].getD 1 ""
      ∧ (record_and_save "jdoe" 1 none ["A", "B"] none "data" "t"
          ⟨[], [], [], []⟩).1.prompt_idx = 1
      ∧ (record_and_save "jdoe" 1 none ["A", "B"] none "data" "t"
          ⟨[], [], [], []⟩).2 = ⟨[], [], [], []⟩) :=
  ⟨Or.inr (Or.inl rfl),
   c6_validation_no_mutation "jdoe" 1 none ["A", "B"] none "data" "t"
     ⟨[], [], [], []⟩ (Or.inr (Or.inl rfl))⟩

/-- C8: Valid-index invariant.  The merger maps a store whose completed
indices all lie in `0..N-1` to another such store whenever the submitted
index does (for arbitrary callers); the sequencer only produces indices
below `N` on a non-empty prompt list; and `record_and_save` on a valid
store with `prompt_idx < N` leaves a valid store. -/
theorem c8_valid_indices (prompts : List String) (sid sid2 : String)
    (idx : Nat) (audio : Option AudioLike) (bucket : Option String)
    (root ts : String) (w : World) (p : Progress) (i : Int) (d : Rat)
    (c : List Int)
    (hlt : idx < prompts.length) (hn : 1 ≤ prompts.length)
    (hvw : ValidStore prompts.length w.progress)
    (hvp : ValidStore prompts.length p) (hi0 : 0 ≤ i)
    (hiN : i < (prompts.length : Int)) :
    ValidStore prompts.length (save_progress p sid2 i d)
    ∧ next_prompt_idx prompts.length c < prompts.length
    ∧ ValidStore prompts.length
        (record_and_save sid idx audio prompts bucket root ts w).2.progress := by
  refine ⟨validStore_save_progress hvp hi0 hiN, next_prompt_idx_lt c hn, ?_⟩
  cases hbv : isBlank sid with
  | true => simpa [record_and_save, hbv] using hvw
  | false =>
      cases audio with
      | none => simpa [record_and_save, hbv] using hvw
      | some a =>
          cases hw : audio_to_wav_bytes a with
          | none => simpa [record_and_save, hbv, hw] using hvw
          | some dur =>
              cases bucket with
              | none =>
                  have hred : (record_and_save sid idx (some a) prompts none
                      root ts w).2.progress
                      = save_progress w.progress sid (Int.ofNat idx)
                        ((lookupFile ((local_path root sid idx ts, dur) ::
                          w.localAudio) (local_path root sid idx ts)).getD 0) := by
                    simp [record_and_save, hbv, hw]
                  rw [hred]
                  refine validStore_save_progress hvw (Int.ofNat_nonneg idx) ?_
                  show (idx : Int) < (prompts.length : Int)
                  exact_mod_cast hlt
              | some b =>
                  have hred : (record_and_save sid idx (some a) prompts
                      (some b) root ts w).2.progress
                      = save_progress w.progress sid (Int.ofNat idx)
                        ((lookupFile w.localAudio
                          (local_path root sid idx ts)).getD 0) := by
                    simp [record_and_save, hbv, hw]
                  rw [hred]
                  refine validStore_save_progress hvw (Int.ofNat_nonneg idx) ?_
                  show (idx : Int) < (prompts.length : Int)
                  exact_mod_cast hlt

/-- Witness for C8 at a concrete input. -/
theorem c8_valid_indices_witness :
    (1 < 2 ∧ 1 ≤ 2
      ∧ ValidStore 2 ([("a", ⟨[0], 1⟩)] : Progress)
      ∧ ValidStore 2 ([] : Progress)
      ∧ (0 : Int) ≤ 0 ∧ (0 : Int) < (2 : Int))
    ∧ (ValidStore 2 (save_progress [] "b" 0 1)
      ∧ next_prompt_idx 2 [0] < 2
      ∧ ValidStore 2 (record_and_save "a" 1 (some (.tupleSr 1)) ["A", "B"]
          none "data" "t" ⟨[("a", ⟨[0], 1⟩)], [], [], []⟩).2.progress) :=
  ⟨⟨by decide, by decide, by decide, by decide, by decide, by decide⟩,
   c8_valid_indices ["A", "B"] "a" "b" 1 (some (.tupleSr 1)) none "data" "t"
     ⟨[("a", ⟨[0], 1⟩)], [], [], []⟩ [] 0 1 [0] (by decide) (by decide)
     (by decide) (by decide) (by decide) (by decide)⟩

/-- C9: The AWS variant advances cyclically.  On a successful submit,
the returned next index is `(prompt_idx + 1) % len(prompts)`, and the
returned triple is identical for any two starting worlds — the script
keeps no per-volunteer progress, so nothing about previously completed
prompts can influence the next prompt or allow resuming. -/
theorem c9_aws_cyclic (sid : String) (idx : Nat) (dur : Rat)
    (prompts : List String) (bucket : Option String) (root ts : String)
    (w w' : AwsWorld) (hs : awsBlank sid = false) :
    (aws_record_and_save sid idx (some dur) prompts bucket root ts
        w).1.prompt_idx = (idx + 1) % prompts.length
    ∧ (aws_record_and_save sid idx (some dur) prompts bucket root ts w).1
      = (aws_record_and_save sid idx (some dur) prompts bucket root ts w').1 := by
  cases bucket <;> simp [aws_record_and_save, hs]

/-- Witness for C9 at a concrete input. -/
theorem c9_aws_cyclic_witness :
    awsBlank "jdoe" = false
    ∧ ((aws_record_and_save "jdoe" 2 (some 1) ["A", "B", "C"] none "data" "t"
        ⟨[], [], []⟩).1.prompt_idx = (2 + 1) % 3
      ∧ (aws_record_and_save "jdoe" 2 (some 1) ["A", "B", "C"] none "data" "t"
          ⟨[], [], []⟩).1
        = (aws_record_and_save "jdoe" 2 (some 1) ["A", "B", "C"] none "data"
            "t" ⟨[("x", 1)], [], []⟩).1) :=
  ⟨by decide,
   c9_aws_cyclic "jdoe" 2 1 ["A", "B", "C"] none "data" "t" ⟨[], [], []⟩
     ⟨[("x", 1)], [], []⟩ (by decide)⟩

/-- C10: Duration-probe fallback.  In bucket mode with no local file at
the probed path, `record_and_save` still reports success, records the
completion, and adds a duration of 0, leaving `total_duration_seconds`
unchanged — permanently undercounting it for this first-time
completion. -/
theorem c10_probe_failure_undercounts (sid : String) (idx : Nat)
    (a : AudioLike) (dur : Rat) (prompts : List String) (b : String)
    (root ts : String) (w : World)
    (hs : isBlank sid = false) (ha : audio_to_wav_bytes a = some dur)
    (hmiss : lookupFile w.localAudio (local_path root sid idx ts) = none)
    (hfresh : Int.ofNat idx ∉ (getProgress w.progress sid).completed_prompts) :
    (record_and_save sid idx (some a) prompts (some b) root ts w).1.status
      = .saved ("s3://" ++ b ++ "/" ++ s3_key_of sid idx ts)
    ∧ (getProgress (record_and_save sid idx (some a) prompts (some b) root
        ts w).2.progress sid).total_duration_seconds
      = (getProgress w.progress sid).total_duration_seconds
    ∧ Int.ofNat idx ∈ (getProgress (record_and_save sid idx (some a) prompts
        (some b) root ts w).2.progress sid).completed_prompts := by
  have hred : (record_and_save sid idx (some a) prompts (some b) root ts
      w).2.progress = save_progress w.progress sid (Int.ofNat idx) 0 := by
    simp [record_and_save, hs, ha, hmiss]
  refine ⟨?_, ?_, ?_⟩
  · simp [record_and_save, hs, ha]
  · rw [hred, getProgress_save_progress, if_neg hfresh]
    simp
  · rw [hred, getProgress_save_progress, if_neg hfresh]
    exact mem_dedupSort.mpr (List.mem_append_right _ (by simp))

/-- Witness for C10 at a concrete input. -/
theorem c10_probe_failure_undercounts_witness :
    (isBlank "jdoe" = false ∧ audio_to_wav_bytes (.tupleSr 2) = some 2
      ∧ lookupFile ([] : List (String × Rat))
          (local_path "data" "jdoe" 0 "t") = none
      ∧ Int.ofNat 0 ∉ (getProgress ([] : Progress) "jdoe").completed_prompts)
    ∧ ((record_and_save "jdoe" 0 (some (.tupleSr 2)) ["A"] (some "b") "data"
          "t" ⟨[], [], [], []⟩).1.status
        = .saved ("s3://" ++ "b" ++ "/" ++ s3_key_of "jdoe" 0 "t")
      ∧ (getProgress (record_and_save "jdoe" 0 (some (.tupleSr 2)) ["A"]
          (some "b") "data" "t" ⟨[], [], [], []⟩).2.progress
          "jdoe").total_duration_seconds
        = (getProgress ([] : Progress) "jdoe").total_duration_seconds
      ∧ Int.ofNat 0 ∈ (getProgress (record_and_save "jdoe" 0
          (some (.tupleSr 2)) ["A"] (some "b") "data" "t"
          ⟨[], [], [], []⟩).2.progress "jdoe").completed_prompts) :=
  ⟨⟨by decide, rfl, rfl, by decide⟩,
   c10_probe_failure_undercounts "jdoe" 0 (.tupleSr 2) 2 ["A"] "b" "data" "t"
     ⟨[], [], [], []⟩ (by decide) rfl rfl (by decide)⟩

end RecordingDemo
